import Mathlib

/-!
Verification development for the `lazyme` image-tools repository.

The Python sources under `src/image_tools/` are shallowly embedded below:
pure fragments become Lean functions, filesystem state becomes explicit
data (lists of names / byte lists), Python `int` becomes `Nat`/`Int`,
Python `float` coordinate values are modelled exactly (as `ℚ`, or as
integers scaled by 10^4 where the code formats to 4 decimal places).
-/

namespace LazyMe

/-! ## Decimal numerals

Models Python `str(n)` for a non-negative integer (used by
`get_file_hash` via `str(size).encode()`, by `get_unique_path` /
`unique_target_path` via f-string counters) and `int(s)` for a digit
string (used by `find_duplicates_by_pattern` via `int(match.group(2))`).
-/

/-- The ASCII digit character for `d < 10`. -/
def digitChar (d : Nat) : Char := Char.ofNat (48 + d)

/-- Decimal rendering, fuelled so that it is structurally recursive (the
fuel is an upper bound on the number of digits; it is never exhausted
when called through `natToDecimal`). -/
def natToDecimalAux : Nat → Nat → List Char
  | 0, _ => []
  | fuel + 1, n =>
    if n < 10 then [digitChar n]
    else natToDecimalAux fuel (n / 10) ++ [digitChar (n % 10)]

/-- Decimal rendering of a natural number, as Python `str(n)` produces it. -/
def natToDecimal (n : Nat) : List Char :=
  natToDecimalAux (n + 1) n

/-- Value of a decimal digit string, as Python `int(s)` computes it on a
string of digits (leading zeros allowed). -/
def decimalToNat (l : List Char) : Nat :=
  l.foldl (fun a c => 10 * a + (c.toNat - 48)) 0

/-- Zero padding on the left to width `k` (Python's `%0kd` / `{:0kd}`
format on a non-negative number). -/
def padZeros (k : Nat) (l : List Char) : List Char :=
  List.replicate (k - l.length) '0' ++ l

/-! ## Images and PIL transforms

An image is modelled as its pixel grid: dimensions plus a pixel lookup
function (values at coordinates outside `[0,w) × [0,h)` are irrelevant;
image equality used by the claims is `PImage.eqv` below, agreement on
all in-bounds pixels).

PIL's `Image.rotate(angle, expand=True)` rotates the image by `angle`
degrees COUNTERCLOCKWISE; `ROTATE_180`/`ROTATE_270`-style quarter turns
are direct pixel permutations.  `transpose(FLIP_LEFT_RIGHT)` mirrors
horizontally, `transpose(FLIP_TOP_BOTTOM)` mirrors vertically.
-/

/-- A decoded raster image: width, height, and pixel values (coordinate
`x` grows rightwards, `y` grows downwards, as in PIL). -/
structure PImage where
  w : Nat
  h : Nat
  px : Nat → Nat → Nat

/-- Agreement of two images on dimensions and all in-bounds pixels. -/
def PImage.eqv (a b : PImage) : Prop :=
  a.w = b.w ∧ a.h = b.h ∧ ∀ x y, x < a.w → y < a.h → a.px x y = b.px x y

/-- PIL `transpose(Image.FLIP_LEFT_RIGHT)`: horizontal mirror. -/
def flipLR (im : PImage) : PImage :=
  ⟨im.w, im.h, fun x y => im.px (im.w - 1 - x) y⟩

/-- PIL `transpose(Image.FLIP_TOP_BOTTOM)`: vertical mirror. -/
def flipTB (im : PImage) : PImage :=
  ⟨im.w, im.h, fun x y => im.px x (im.h - 1 - y)⟩

/-- One quarter turn counterclockwise (PIL `rotate(90, expand=True)`):
the right edge of the input becomes the top edge of the output. -/
def rotCCW90 (im : PImage) : PImage :=
  ⟨im.h, im.w, fun x y => im.px (im.w - 1 - y) x⟩

/-- One quarter turn clockwise: the left edge of the input becomes the
top edge of the output.  (Used to state the spec's table, whose rotation
column is labelled "rotation(CW)".) -/
def rotCW90 (im : PImage) : PImage :=
  ⟨im.h, im.w, fun x y => im.px y (im.h - 1 - x)⟩

/-- `k` quarter turns counterclockwise. -/
def rotCCWQuarters : Nat → PImage → PImage
  | 0, im => im
  | k + 1, im => rotCCW90 (rotCCWQuarters k im)

/-- `k` quarter turns clockwise. -/
def rotCWQuarters : Nat → PImage → PImage
  | 0, im => im
  | k + 1, im => rotCW90 (rotCWQuarters k im)

/-- PIL `Image.rotate(angle, expand=True)` for the right-angle rotations
the sources use (`angle ∈ {90, 180, 270}` degrees, counterclockwise),
as PIL implements them: direct pixel permutations. -/
def pilRotate (angle : Nat) (im : PImage) : PImage :=
  match angle with
  | 90 => rotCCW90 im
  | 180 => ⟨im.w, im.h, fun x y => im.px (im.w - 1 - x) (im.h - 1 - y)⟩
  | 270 => ⟨im.h, im.w, fun x y => im.px y (im.h - 1 - x)⟩
  | _ => im

/-! ## orient_pro.py: EXIF orientation handling

`get_orientation_tag` (orient_pro.py lines 178-218) tries three
strategies on the image's EXIF data — `getexif().get(0x0112)`, an items
scan for the `Orientation` tag, `_getexif().get(274, 1)` — all reading
the same mapping; on a single modelled EXIF mapping (tag number →
value) they collapse to: value of tag 274 when the block exists and
holds one, else the default 1.

`apply_exif_orientation` (lines 241-280) is modelled by its explicit
per-tag decode (lines 261-276): tag 1 is a no-op; tags 2-8 mirror
and/or rotate via the PIL primitives above; any other value falls
through unchanged.  (The code first tries `ImageOps.exif_transpose`,
an opaque external-library call; the repository's own decode table is
the manual branch embedded here.)
-/

/-- EXIF orientation tag lookup with default 1 (orient_pro.py
`get_orientation_tag`): `none` models an image with no EXIF block. -/
def get_orientation_tag (exif : Option (List (Nat × Nat))) : Nat :=
  match exif with
  | none => 1
  | some m =>
    match m.lookup 274 with
    | some v => v
    | none => 1

/-- The manual EXIF decode of orient_pro.py `apply_exif_orientation`:
returns the transformed image and whether a change was applied.
Python: tag 2 `transpose(FLIP_LEFT_RIGHT)`; 3 `rotate(180)`;
4 `transpose(FLIP_TOP_BOTTOM)`; 5 flip then `rotate(270)`;
6 `rotate(270)`; 7 flip then `rotate(90)`; 8 `rotate(90)`
(all rotations with `expand=True`). -/
def apply_exif_orientation (tag : Nat) (im : PImage) : PImage × Bool :=
  match tag with
  | 1 => (im, false)
  | 2 => (flipLR im, true)
  | 3 => (pilRotate 180 im, true)
  | 4 => (flipTB im, true)
  | 5 => (pilRotate 270 (flipLR im), true)
  | 6 => (pilRotate 270 im, true)
  | 7 => (pilRotate 90 (flipLR im), true)
  | 8 => (pilRotate 90 im, true)
  | _ => (im, false)

/-- One run of the ExifNormalize pipeline on a (stored orientation tag,
pixels) state: `apply_exif_orientation` decides and transforms, and when
a change was applied `save_with_metadata` (orient_pro.py lines 330-374)
writes the result with the orientation tag reset to 1; when no change is
needed the file is skipped and left untouched. -/
def normalizeStep (s : Nat × PImage) : Nat × PImage :=
  let r := apply_exif_orientation s.1 s.2
  if r.2 then (1, r.1) else s

/-- orient_pro.py `force_orientation` (lines 283-297): compare the
landscape test `width >= height` with the requested class; rotate
`270` (for landscape) or `90` (for portrait) when they differ.
`want_landscape = true` requests landscape. -/
def force_orientation (im : PImage) (want_landscape : Bool) : PImage × Bool :=
  let is_landscape : Bool := decide (im.h ≤ im.w)
  if is_landscape = want_landscape then (im, false)
  else ((if want_landscape then pilRotate 270 im else pilRotate 90 im), true)

/-- Bounding-box class of an image: `true` = landscape (the code's
`w >= h` test, orient_pro.py line 288 and 427-429). -/
def isLandscape (im : PImage) : Bool := decide (im.h ≤ im.w)

/-! ## The spec's §4.1 orientation table

Two renderings of the table "tag → (mirror, rotation)", built from the
spec's words and applied mirror-first: one reading the rotation column
as clockwise degrees (as the spec labels it), one reading it as
counterclockwise degrees.
-/

/-- Mirror column of the §4.1 table. -/
def specMirror (tag : Nat) : Bool :=
  tag = 2 ∨ tag = 4 ∨ tag = 5 ∨ tag = 7

/-- Rotation column of the §4.1 table (in degrees). -/
def specRotDeg (tag : Nat) : Nat :=
  if tag = 3 ∨ tag = 4 then 180
  else if tag = 5 ∨ tag = 6 then 270
  else if tag = 7 ∨ tag = 8 then 90
  else 0

/-- The §4.1 table applied as the spec words it: mirror first, then the
tabulated rotation taken as CLOCKWISE degrees. -/
def specTableTransformCW (tag : Nat) (im : PImage) : PImage :=
  rotCWQuarters (specRotDeg tag / 90) (if specMirror tag then flipLR im else im)

/-- The §4.1 table applied with the tabulated rotation taken as
COUNTERCLOCKWISE degrees (PIL's `rotate` convention), mirror first. -/
def specTableTransformCCW (tag : Nat) (im : PImage) : PImage :=
  rotCCWQuarters (specRotDeg tag / 90) (if specMirror tag then flipLR im else im)

/-! ## rename_images_by_exif_pro.py: filename generation

`FilenameGenerator` (lines 379-487) with the default template
`"{date}_{time}_{ms}{gps}_{original}"` and `include_camera = False`.
The capture timestamp is carried as split calendar fields (what
`strftime` reads); GPS coordinates are modelled exactly, as signed
integers in units of 10^-4 degrees (`f"{v:.4f}"` on such a value
prints its 4 decimal digits verbatim).
-/

/-- Characters replaced with `_` by `sanitize_filename`
(rename_images_by_exif_pro.py lines 394-401). -/
def isBadChar (c : Char) : Bool :=
  c = '/' ∨ c = '\\' ∨ c = ':' ∨ c = '*' ∨ c = '?' ∨
    c = '"' ∨ c = '<' ∨ c = '>' ∨ c = '|' ∨ c = '\x00'

/-- ASCII whitespace as matched by Python's `\s` / `str.split` /
`str.strip` (the sources only meet ASCII names). -/
def isPyWs (c : Char) : Bool :=
  c = ' ' ∨ c = '\t' ∨ c = '\n' ∨ c = '\r' ∨ c = '\x0b' ∨ c = '\x0c'

/-- Helper for regex run-collapsing: copies the list, emitting `rep`
for the first character of every maximal run of characters matching
`p` and dropping the rest of the run. -/
def collapseRunsGo (p : Char → Bool) (rep : Char) : Bool → List Char → List Char
  | _, [] => []
  | inRun, c :: rest =>
    if p c then
      if inRun then collapseRunsGo p rep true rest
      else rep :: collapseRunsGo p rep true rest
    else c :: collapseRunsGo p rep false rest

/-- `re.sub(p+, rep, s)`: every maximal run of characters matching `p`
becomes the single character `rep`.  (Also models `re.sub(r'_{2,}','_')`,
since a run of length one is kept as-is either way.) -/
def collapseRuns (p : Char → Bool) (rep : Char) (l : List Char) : List Char :=
  collapseRunsGo p rep false l

/-- Python `str.strip` with the given character set: remove matching
characters from both ends. -/
def stripChars (p : Char → Bool) (l : List Char) : List Char :=
  ((l.dropWhile p).reverse.dropWhile p).reverse

/-- `FilenameGenerator.sanitize_filename` (lines 383-413): replace
problematic characters with `_`, collapse `[\s_]+` runs to a single
`_`, strip leading/trailing spaces and underscores, cap at 200
characters (`MAX_FILENAME_LENGTH`). -/
def sanitize_filename (name : String) : String :=
  let replaced := name.data.map (fun c => if isBadChar c then '_' else c)
  let collapsed := collapseRuns (fun c => isPyWs c ∨ c = '_') '_' replaced
  let stripped := stripChars (fun c => c = ' ' ∨ c = '_') collapsed
  ⟨stripped.take 200⟩

/-- Python `f"{v:.4f}"` on the exact value `v · 10^-4`: sign, integer
part, `.`, four fractional digits. -/
def formatFixed4 (v : Int) : String :=
  (if v < 0 then "-" else "") ++ (⟨natToDecimal (v.natAbs / 10000)⟩ : String) ++
    "." ++ (⟨padZeros 4 (natToDecimal (v.natAbs % 10000))⟩ : String)

/-- Python `str.replace(a, b)` for single characters. -/
def pyReplaceChar (a b : Char) (s : String) : String :=
  ⟨s.data.map (fun c => if c = a then b else c)⟩

/-- `FilenameGenerator.format_gps` (lines 415-434): empty unless both
present; else `_lat<v>_lon<v>` with each `f"{v:.4f}"` rendering having
`.` replaced by `p` and `-` replaced by `m`. -/
def format_gps (lat lon : Option Int) : String :=
  match lat, lon with
  | some la, some lo =>
    let lat_str := pyReplaceChar '-' 'm' (pyReplaceChar '.' 'p' ("lat" ++ formatFixed4 la))
    let lon_str := pyReplaceChar '-' 'm' (pyReplaceChar '.' 'p' ("lon" ++ formatFixed4 lo))
    "_" ++ lat_str ++ "_" ++ lon_str
  | _, _ => ""

/-- Metadata driving filename generation (`ImageMetadata` of
rename_images_by_exif_pro.py, restricted to the fields the default
template reads).  GPS is in units of 10^-4 degrees. -/
structure ImageMetadata where
  year : Nat
  month : Nat
  day : Nat
  hour : Nat
  minute : Nat
  second : Nat
  milliseconds : Nat
  latE4 : Option Int
  lonE4 : Option Int
  original_name : String

/-- `strftime("%Y%m%d")`. -/
def strftimeDate (m : ImageMetadata) : String :=
  ⟨padZeros 4 (natToDecimal m.year) ++ padZeros 2 (natToDecimal m.month) ++
    padZeros 2 (natToDecimal m.day)⟩

/-- `strftime("%H%M%S")`. -/
def strftimeTime (m : ImageMetadata) : String :=
  ⟨padZeros 2 (natToDecimal m.hour) ++ padZeros 2 (natToDecimal m.minute) ++
    padZeros 2 (natToDecimal m.second)⟩

/-- `FilenameGenerator.generate_filename` (lines 436-486) under the
default template: fill the template, collapse `_{2,}` runs, strip `_`,
sanitize. -/
def generate_filename (m : ImageMetadata) : String :=
  let date := strftimeDate m
  let time := strftimeTime m
  let ms : String := ⟨padZeros 3 (natToDecimal m.milliseconds)⟩
  let gps := format_gps m.latE4 m.lonE4
  let original := sanitize_filename m.original_name
  let f1 := date ++ "_" ++ time ++ "_" ++ ms ++ gps ++ "_" ++ original
  let f2 : String := ⟨collapseRuns (fun c => c = '_') '_' f1.data⟩
  let f3 : String := ⟨stripChars (fun c => c = '_') f2.data⟩
  sanitize_filename f3

/-! ## rename_images_by_exif.py: the basic renamer -/

/-- Characters replaced with `_` by the basic `safe_filename`
(rename_images_by_exif.py lines 66-72; note: no NUL in this list). -/
def isBadCharBasic (c : Char) : Bool :=
  c = '/' ∨ c = '\\' ∨ c = ':' ∨ c = '*' ∨ c = '?' ∨
    c = '"' ∨ c = '<' ∨ c = '>' ∨ c = '|'

/-- rename_images_by_exif.py `safe_filename`: replace problematic
characters, `strip()` whitespace, and `"_".join(s.split())` — i.e.
collapse internal whitespace runs to single underscores. -/
def safe_filename (s : String) : String :=
  let replaced := s.data.map (fun c => if isBadCharBasic c then '_' else c)
  let stripped := stripChars isPyWs replaced
  ⟨collapseRuns isPyWs '_' stripped⟩

/-- rename_images_by_exif.py `format_latlon` (lines 113-124): plain
`lat{lat:.4f}_lon{lon:.4f}` when both present (signed, with dots). -/
def format_latlon (lat lon : Option Int) : Option String :=
  match lat, lon with
  | some la, some lo => some ("lat" ++ formatFixed4 la ++ "_lon" ++ formatFixed4 lo)
  | _, _ => none

/-- The base name built by rename_images_by_exif.py `process_file`
(lines 160-182): `"_".join([timestamp] ++ [latlon?] ++ [safe original])`
with timestamp `f"{dt:%Y%m%d}_{dt:%H%M%S}_{msec:03d}"`. -/
def basic_base_name (m : ImageMetadata) : String :=
  let ts := strftimeDate m ++ "_" ++ strftimeTime m ++ "_" ++
    (⟨padZeros 3 (natToDecimal m.milliseconds)⟩ : String)
  let parts :=
    match format_latlon m.latE4 m.lonE4 with
    | some ll => [ts, ll, safe_filename m.original_name]
    | none => [ts, safe_filename m.original_name]
  String.intercalate "_" parts

/-- The fixed metadata of claim C2: 2024-03-05 14:22:01, 123 ms,
GPS (37.7749, -122.4194), original name "IMG_5". -/
def c2meta : ImageMetadata :=
  ⟨2024, 3, 5, 14, 22, 1, 123, some 377749, some (-1224194), "IMG_5"⟩

/-! ## Collision resolution (get_unique_path / unique_target_path) -/

/-- The `k`-th fallback candidate `f"{base_name}-{counter}{extension}"`. -/
def mkCandidate (base ext : String) (k : Nat) : String :=
  base ++ "-" ++ (⟨natToDecimal k⟩ : String) ++ ext

/-- The `while candidate.exists()` loop of `get_unique_path`, fuelled;
the fuel is never exhausted when called with `dir.length + 1` (some
candidate among the first `dir.length + 1` is necessarily free). -/
def getUniquePathGo (dir : List String) (base ext : String) : Nat → Nat → String
  | 0, k => mkCandidate base ext k
  | fuel + 1, k =>
    let c := mkCandidate base ext k
    if c ∈ dir then getUniquePathGo dir base ext fuel (k + 1) else c

/-- rename_images_by_exif_pro.py `FileOperations.get_unique_path`
(lines 496-516) = rename_images_by_exif.py `unique_target_path`
(lines 147-156): first try `base ++ ext`; while the candidate exists in
the destination directory (modelled as the list of names present),
try `base-1`, `base-2`, ….  -/
def get_unique_path (dir : List String) (base ext : String) : String :=
  if (base ++ ext) ∈ dir then getUniquePathGo dir base ext (dir.length + 1) 1
  else base ++ ext

/-! ## MetadataExtractor.extract_gps (rename_images_by_exif_pro.py)

Python float coordinate values are modelled as exact rationals; the
inputs are the already-numeric `GPSLatitude`/`GPSLongitude` values that
`exiftool -n` returns (`none` = tag absent).
-/

/-- `MetadataExtractor.extract_gps` (lines 269-307): `none` unless both
components are present, in range, and not both within 0.01° of (0,0);
every rejection is silent (a debug log only). -/
def extract_gps (lat lon : Option ℚ) : Option (ℚ × ℚ) :=
  match lat, lon with
  | some la, some lo =>
    if ¬(-90 ≤ la ∧ la ≤ 90) then none
    else if ¬(-180 ≤ lo ∧ lo ≤ 180) then none
    else if |la| < 1 / 100 ∧ |lo| < 1 / 100 then none
    else some (la, lo)
  | _, _ => none

/-! ## process_images_batch (orient_pro.py)

The sequential branch of `process_images_batch` (lines 508-527) folds
per-file results into `ProcessingStats`.  A per-file result is the
triple `(path, success, error)` that `process_single_image` returns for
the path (that function catches every exception internally, so the loop
body is total).  `main` (line 732) exits with status 0 exactly when
`stats.errors == 0`.
-/

/-- Error messages the sequential loop counts as skips rather than
errors (orient_pro.py line 517): those mentioning HEIC support or
iCloud placeholders. -/
def isSkippableError (msg : String) : Bool :=
  decide ("HEIC file".data <:+: msg.data) ∨
    decide ("iCloud placeholder".data <:+: msg.data)

/-- Processing statistics (orient_pro.py `ProcessingStats`). -/
structure ProcessingStats where
  total : Nat
  processed : Nat
  skipped : Nat
  errors : Nat
  error_details : List String

/-- Whether a per-file result is recorded as an error by the loop. -/
def isRecordedError (r : String × Bool × Option String) : Bool :=
  match r.2.2 with
  | some e => ¬ isSkippableError e
  | none => false

/-- One iteration of the sequential loop (orient_pro.py lines 510-524):
an error is recorded (with `f"{path}: {error}"` appended) unless it is
a skippable HEIC/iCloud message; otherwise success and no-change are
tallied as processed and skipped. -/
def batchStep (s : ProcessingStats) (r : String × Bool × Option String) : ProcessingStats :=
  match r.2.2 with
  | some e =>
    if ¬ isSkippableError e then
      { s with errors := s.errors + 1,
               error_details := s.error_details ++ [r.1 ++ ": " ++ e] }
    else { s with skipped := s.skipped + 1 }
  | none =>
    if r.2.1 then { s with processed := s.processed + 1 }
    else { s with skipped := s.skipped + 1 }

/-- `process_images_batch` over the whole file list (sequential path):
every file's result is folded in; no outcome aborts the loop. -/
def process_images_batch (results : List (String × Bool × Option String)) : ProcessingStats :=
  results.foldl batchStep ⟨results.length, 0, 0, 0, []⟩

/-- `main`'s exit status (orient_pro.py line 732):
`sys.exit(0 if stats.errors == 0 else 1)`. -/
def exit_code (s : ProcessingStats) : Nat :=
  if s.errors = 0 then 0 else 1

/-- The C9 demo batch: one corrupt file and four valid ones. -/
def c9demo : List (String × Bool × Option String) :=
  [("bad.jpg", false, some "cannot identify image file"),
   ("a.jpg", true, none), ("b.jpg", true, none),
   ("c.jpg", true, none), ("d.jpg", true, none)]

/-- ExifNormalize resolution from the EXIF block: read the orientation
tag (default 1) and apply the decode. -/
def resolve_exif (exif : Option (List (Nat × Nat))) (im : PImage) : PImage × Bool :=
  apply_exif_orientation (get_orientation_tag exif) im

/-! ## remove_macos_duplicates.py: pattern-based grouping

`DUPLICATE_PATTERN = re.compile(r'^(.+)\s+(\d+)(\.[^.]+)$')` (line 45)
and `find_duplicates_by_pattern` (lines 79-132).  Files are modelled by
their names (the input file set).
-/

/-- Python `\d` on the ASCII names these tools meet. -/
def isDigitChar (c : Char) : Bool := '0' ≤ c ∧ c ≤ '9'

/-- Greedy match of `^(.+)\s+(\d+)(\.[^.]+)$` as Python `re` performs
it, returning `(base, digits, extension-with-dot)`.

The extension group sits at the LAST dot: `[^.]+` cannot cross a dot
and `$` anchors the end (a greedy `[^.]+` swallows everything after
that dot).  The digits group is then forced to be the maximal digit
run ending just before that dot (a shorter run would leave digits
between `\d+` and the dot, and digits are neither whitespace nor the
dot).  Greedy `(.+)` finally takes the longest admissible base: the
base cannot contain a newline (Python `.`), must leave at least one
character for `\s+`, and everything between base and digits must be
whitespace. -/
def matchDupPattern (l : List Char) : Option (List Char × List Char × List Char) :=
  let revl := l.reverse
  let extTail := revl.takeWhile (fun c => c ≠ '.')
  if extTail.length = revl.length then none
  else if extTail.isEmpty then none
  else
    let pre := (revl.drop (extTail.length + 1)).reverse
    let ds := (pre.reverse.takeWhile isDigitChar).reverse
    if ds.isEmpty then none
    else
      let bw := pre.take (pre.length - ds.length)
      let j := min (bw.length - 1) (bw.takeWhile (fun c => c ≠ '\n')).length
      let base := bw.take j
      let ws := bw.drop j
      if base.isEmpty ∨ ws.isEmpty ∨ ¬ ws.all isPyWs then none
      else some (base, ds, '.' :: extTail.reverse)

/-- The original name `f"{base_name}{extension}"` a copy-candidate
points at (line 105), or `none` for names not matching the pattern. -/
def dupOriginalName (f : String) : Option String :=
  (matchDupPattern f.data).map (fun r => ⟨r.1 ++ r.2.2⟩)

/-- The `(copy_num, filepath)` pairs collected under key `orig` by the
first pass (lines 96-107), in file order — per-key dict insertion
order equals file iteration order. -/
def copyCandidates (files : List String) (orig : String) : List (Nat × String) :=
  files.filterMap (fun f =>
    match matchDupPattern f.data with
    | some r =>
      if (⟨r.1 ++ r.2.2⟩ : String) = orig then some (decimalToNat r.2.1, f) else none
    | none => none)

/-- Whether the `originals` dict (non-matching files, lines 108-110)
holds a file of exactly this name. -/
def isOriginalPresent (files : List String) (orig : String) : Bool :=
  decide (orig ∈ files) && (matchDupPattern orig.data).isNone

/-- Key order of the `duplicates` defaultdict: first-occurrence order
of the original names of matching files. -/
def firstDedup : List String → List String
  | [] => []
  | a :: rest => a :: (firstDedup rest).filter (fun b => b ≠ a)

/-- Keys of the `duplicates` defaultdict. -/
def dupKeys (files : List String) : List String :=
  firstDedup (files.filterMap dupOriginalName)

/-- The tuple order Python `sorted()` uses on `(int, Path)` pairs
(`Path` comparison on single-segment relative paths is string
comparison). -/
def pairLe (a b : Nat × String) : Prop :=
  a.1 < b.1 ∨ (a.1 = b.1 ∧ a.2 ≤ b.2)

instance : DecidableRel pairLe := fun a b => by unfold pairLe; infer_instance

instance : IsTotal (Nat × String) pairLe :=
  ⟨fun a b => by
    rcases Nat.lt_trichotomy a.1 b.1 with h | h | h
    · exact Or.inl (Or.inl h)
    · rcases le_total a.2 b.2 with hs | hs
      · exact Or.inl (Or.inr ⟨h, hs⟩)
      · exact Or.inr (Or.inr ⟨h.symm, hs⟩)
    · exact Or.inr (Or.inl h)⟩

instance : IsTrans (Nat × String) pairLe :=
  ⟨fun a b c hab hbc => by
    rcases hab with h1 | ⟨h1, h1s⟩ <;> rcases hbc with h2 | ⟨h2, h2s⟩
    · exact Or.inl (by omega)
    · exact Or.inl (by omega)
    · exact Or.inl (by omega)
    · exact Or.inr ⟨by omega, le_trans h1s h2s⟩⟩

/-- Python `sorted(dup_list)`. -/
def sortCands (l : List (Nat × String)) : List (Nat × String) :=
  List.insertionSort pairLe l

/-- `find_duplicates_by_pattern` second pass (lines 113-132): a key
with its original present maps the original to the sorted copies; with
no original, the smallest-numbered candidate becomes pseudo-canonical
and the rest its copies, the group being emitted only when that rest
is non-empty (`if rest:`). -/
def find_duplicates_by_pattern (files : List String) : List (String × List String) :=
  (dupKeys files).filterMap (fun orig =>
    let sorted := sortCands (copyCandidates files orig)
    if isOriginalPresent files orig then some (orig, sorted.map (fun p => p.2))
    else
      match sorted with
      | [] => none
      | c :: rest => if rest.isEmpty then none else some (c.2, rest.map (fun p => p.2)))

/-! ## remove_macos_duplicates.py: hash verification

`get_file_hash` (lines 48-76) and `verify_duplicates_by_hash`
(lines 135-175).  File contents are byte lists; the filesystem is a
path → bytes association list; MD5 (an opaque library primitive) is
abstracted as the `digest` parameter.
-/

/-- The byte stream fed to MD5 in quick mode: first 64KB, the decimal
rendering of the byte size (`str(size).encode()`), and — only when the
file exceeds 64KB — the last 64KB. -/
def quickHashInput (bytes : List Nat) : List Nat :=
  bytes.take 65536 ++ (natToDecimal bytes.length).map Char.toNat ++
    (if bytes.length > 65536 then bytes.drop (bytes.length - 65536) else [])

/-- `get_file_hash(filepath, quick)`: digest of the quick stream or of
the full content. -/
def get_file_hash (digest : List Nat → Nat) (quick : Bool) (bytes : List Nat) : Nat :=
  digest (if quick then quickHashInput bytes else bytes)

/-- Why a candidate was dropped during verification (the two distinct
warning messages at lines 162 and 170). -/
inductive RejectReason where
  | sizeMismatch
  | hashMismatch
  deriving DecidableEq

/-- Result of one group's verification loop: surviving copies, the
files whose digest was computed (in order), and dropped copies with
their reported reason. -/
structure VerifyGroupResult where
  kept : List String
  hashed : List String
  rejected : List (String × RejectReason)

/-- The copies a group's loop keeps, given the canonical's bytes `ob`
(lines 154-168): existing, equal-sized, and digest-equal. -/
def keptOf (digest : List Nat → Nat) (st : List (String × List Nat)) (quick : Bool)
    (ob : List Nat) (copies : List String) : List String :=
  copies.filter (fun c =>
    match st.lookup c with
    | some cb => decide (cb.length = ob.length ∧
        get_file_hash digest quick cb = get_file_hash digest quick ob)
    | none => false)

/-- The copies whose digest the loop computes: existing copies that
passed the size pre-check (line 166 runs only after line 161). -/
def hashedCopiesOf (st : List (String × List Nat)) (ob : List Nat)
    (copies : List String) : List String :=
  copies.filter (fun c =>
    match st.lookup c with
    | some cb => decide (cb.length = ob.length)
    | none => false)

/-- The copies the loop drops, each with its reported reason:
size mismatch (checked first, line 161) or hash mismatch (line 170). -/
def rejectedOf (digest : List Nat → Nat) (st : List (String × List Nat)) (quick : Bool)
    (ob : List Nat) (copies : List String) : List (String × RejectReason) :=
  copies.filterMap (fun c =>
    match st.lookup c with
    | none => none
    | some cb =>
      if cb.length ≠ ob.length then some (c, RejectReason.sizeMismatch)
      else if get_file_hash digest quick cb ≠ get_file_hash digest quick ob then
        some (c, RejectReason.hashMismatch)
      else none)

/-- The per-group body of `verify_duplicates_by_hash` (lines 147-173):
skip the group if the canonical is missing; hash the canonical; for
each existing copy, reject on byte-size difference BEFORE any hashing,
otherwise hash it and keep it exactly when the digests agree. -/
def verifyGroup (digest : List Nat → Nat) (st : List (String × List Nat))
    (quick : Bool) (g : String × List String) : VerifyGroupResult :=
  match st.lookup g.1 with
  | none => ⟨[], [], []⟩
  | some ob =>
    ⟨keptOf digest st quick ob g.2,
      g.1 :: hashedCopiesOf st ob g.2,
      rejectedOf digest st quick ob g.2⟩

/-- `verify_duplicates_by_hash`: each group keeps only its verified
copies; groups left with no verified copy are dropped. -/
def verify_duplicates_by_hash (digest : List Nat → Nat) (st : List (String × List Nat))
    (quick : Bool) (groups : List (String × List String)) : List (String × List String) :=
  groups.filterMap (fun g =>
    let k := (verifyGroup digest st quick g).kept
    if k.isEmpty then none else some (g.1, k))

/-! ### Concrete test images -/

/-- A 2×1 test image whose two pixels carry distinct values. -/
def cexImg : PImage := ⟨2, 1, fun x _ => x⟩

/-- A 100×200 (portrait) test image. -/
def im100200 : PImage := ⟨100, 200, fun _ _ => 0⟩

/-- A 200×100 (landscape) test image. -/
def im200100 : PImage := ⟨200, 100, fun _ _ => 0⟩

/-- A 150×150 (square) test image. -/
def im150 : PImage := ⟨150, 150, fun _ _ => 0⟩

/-- Force landscape, then portrait, then landscape (the C4 chain). -/
def c4chain (im : PImage) : PImage :=
  (force_orientation
    (force_orientation (force_orientation im true).1 false).1 true).1

/-! ## Theorems -/

theorem digitChar_toNat (d : Nat) (h : d < 10) : (digitChar d).toNat = 48 + d := by
  interval_cases d <;> decide

theorem decimalToNat_append (l₁ l₂ : List Char) :
    decimalToNat (l₁ ++ l₂) =
      l₂.foldl (fun a c => 10 * a + (c.toNat - 48)) (decimalToNat l₁) := by
  simp [decimalToNat, List.foldl_append]

theorem decimalToNat_natToDecimalAux (fuel n : Nat) (hf : n < fuel) :
    decimalToNat (natToDecimalAux fuel n) = n := by
  induction fuel generalizing n with
  | zero => omega
  | succ fuel ih =>
    rw [natToDecimalAux]
    by_cases h : n < 10
    · rw [if_pos h]
      simp [decimalToNat, digitChar_toNat n h]
    · rw [if_neg h]
      rw [decimalToNat_append, ih (n / 10) (by omega)]
      simp [digitChar_toNat (n % 10) (Nat.mod_lt n (by omega))]
      omega

/-- Round trip: parsing the rendering of `n` yields `n` back. -/
theorem decimalToNat_natToDecimal (n : Nat) : decimalToNat (natToDecimal n) = n :=
  decimalToNat_natToDecimalAux (n + 1) n (by omega)

theorem natToDecimalAux_ne_nil (fuel n : Nat) (hf : 0 < fuel) :
    natToDecimalAux fuel n ≠ [] := by
  cases fuel with
  | zero => omega
  | succ fuel =>
    rw [natToDecimalAux]
    by_cases h : n < 10
    · simp [h]
    · simp [h]

/-- The rendering of a number is never the empty string. -/
theorem natToDecimal_ne_nil (n : Nat) : natToDecimal n ≠ [] :=
  natToDecimalAux_ne_nil (n + 1) n (by omega)

theorem natToDecimal_injective : Function.Injective natToDecimal := by
  intro a b h
  have := decimalToNat_natToDecimal a
  rw [h, decimalToNat_natToDecimal] at this
  omega

/-- C1 counterexample: at tag 6 on a concrete 2×1 image, the code's
transform is not the spec table's (mirror, clockwise-rotation) pair —
the table says 270° CW, the code rotates 90° CW (PIL `rotate(270)` is
counterclockwise), and the two results differ at pixel (0,0). -/
theorem C1_counterexample :
    ¬ PImage.eqv (apply_exif_orientation 6 cexImg).1 (specTableTransformCW 6 cexImg) :=
  fun h => absurd (h.2.2 0 0 (by decide) (by decide)) (by decide)

/-- C1 (amended): for every tag 1-8 and every image, the manual EXIF
decode of `apply_exif_orientation` equals the §4.1 table pair applied
mirror-first with the tabulated rotation read as COUNTERCLOCKWISE
degrees (the PIL `rotate` convention); a change is reported exactly for
tags other than 1. -/
theorem C1_exif_table_ccw (tag : Nat) (h1 : 1 ≤ tag) (h8 : tag ≤ 8) (im : PImage) :
    PImage.eqv (apply_exif_orientation tag im).1 (specTableTransformCCW tag im) ∧
      (apply_exif_orientation tag im).2 = decide (tag ≠ 1) := by
  interval_cases tag
  · exact ⟨⟨rfl, rfl, fun x y hx hy => rfl⟩, rfl⟩
  · exact ⟨⟨rfl, rfl, fun x y hx hy => rfl⟩, rfl⟩
  · exact ⟨⟨rfl, rfl, fun x y hx hy => rfl⟩, rfl⟩
  · -- tag 4: FLIP_TOP_BOTTOM versus mirror-then-180°
    refine ⟨⟨rfl, rfl, fun x y hx hy => ?_⟩, rfl⟩
    have hx2 : x < im.w := hx
    show im.px x (im.h - 1 - y) = im.px (im.w - 1 - (im.w - 1 - x)) (im.h - 1 - y)
    exact congrArg₂ im.px (by omega) rfl
  · -- tag 5: mirror then rotate(270) versus mirror then three CCW quarter turns
    refine ⟨⟨rfl, rfl, fun x y hx hy => ?_⟩, rfl⟩
    have hy2 : y < im.w := hy
    show im.px (im.w - 1 - y) (im.h - 1 - x) =
      im.px (im.w - 1 - (im.w - 1 - (im.w - 1 - y))) (im.h - 1 - x)
    exact congrArg₂ im.px (by omega) rfl
  · -- tag 6: rotate(270) versus three CCW quarter turns
    refine ⟨⟨rfl, rfl, fun x y hx hy => ?_⟩, rfl⟩
    have hy2 : y < im.w := hy
    show im.px y (im.h - 1 - x) = im.px (im.w - 1 - (im.w - 1 - y)) (im.h - 1 - x)
    exact congrArg₂ im.px (by omega) rfl
  · exact ⟨⟨rfl, rfl, fun x y hx hy => rfl⟩, rfl⟩
  · exact ⟨⟨rfl, rfl, fun x y hx hy => rfl⟩, rfl⟩

/-- C1 witness: the amended table equality instantiated at tag 6 and the
concrete 2×1 image. -/
theorem C1_witness :
    ((1 : Nat) ≤ 6 ∧ (6 : Nat) ≤ 8) ∧
      (PImage.eqv (apply_exif_orientation 6 cexImg).1 (specTableTransformCCW 6 cexImg) ∧
        (apply_exif_orientation 6 cexImg).2 = decide ((6 : Nat) ≠ 1)) :=
  ⟨⟨by decide, by decide⟩, C1_exif_table_ccw 6 (by decide) (by decide) cexImg⟩

/-- C3: ExifNormalize is idempotent.  Tag 1 reports no change with the
image untouched; one pipeline step resets the stored tag to 1 whenever
it changed the pixels; running the pipeline twice equals running it
once. -/
theorem C3_normalize_idempotent :
    (∀ im, apply_exif_orientation 1 im = (im, false)) ∧
      (∀ tag im, (normalizeStep (tag, im)).1 =
        if (apply_exif_orientation tag im).2 then 1 else tag) ∧
      (∀ s, normalizeStep (normalizeStep s) = normalizeStep s) := by
  refine ⟨fun im => rfl, fun tag im => ?_, fun s => ?_⟩
  · by_cases h : (apply_exif_orientation tag im).2 <;> simp [normalizeStep, h]
  · by_cases h : (apply_exif_orientation s.1 s.2).2
    · have h1 : normalizeStep s = (1, (apply_exif_orientation s.1 s.2).1) := by
        simp [normalizeStep, h]
      rw [h1]
      rfl
    · have h1 : normalizeStep s = s := by simp [normalizeStep, h]
      rw [h1]
      exact h1

/-- C4 counterexample: on the 100×200 image, forcing landscape, then
portrait, then landscape does NOT return the image to its original
bounding-box class (portrait becomes landscape); and on the square
150×150 image, ForcePortrait performs a change yet does not change the
bounding-box class even though the image did not match the requested
class. -/
theorem C4_counterexample :
    isLandscape (c4chain im100200) ≠ isLandscape im100200 ∧
      (isLandscape im150 ≠ false ∧ (force_orientation im150 false).2 = true ∧
        isLandscape (force_orientation im150 false).1 = isLandscape im150) := by
  decide

/-- C4 (amended): a forcing step reports a change exactly when the class
differs from the requested one; on non-square images the step always
lands in the requested class; a square is classified landscape, is left
unchanged by ForceLandscape, and is rotated by ForcePortrait without
changing class; forcing never mirrors (the result is the image itself or
a pure rotation); and on each of the three test sizes the L-P-L chain
ends in the class produced by the first forcing. -/
theorem C4_force_target :
    (∀ im want, ((force_orientation im want).2 = true ↔ isLandscape im ≠ want)) ∧
      (∀ im want, im.w ≠ im.h → isLandscape (force_orientation im want).1 = want) ∧
      (∀ im, im.w = im.h → force_orientation im true = (im, false) ∧
        force_orientation im false = (pilRotate 90 im, true) ∧
        isLandscape (force_orientation im false).1 = true) ∧
      (∀ im want, (force_orientation im want).1 = im ∨
        (force_orientation im want).1 = pilRotate 270 im ∨
        (force_orientation im want).1 = pilRotate 90 im) ∧
      (isLandscape (c4chain im100200) = isLandscape (force_orientation im100200 true).1 ∧
        isLandscape (c4chain im200100) = isLandscape (force_orientation im200100 true).1 ∧
        isLandscape (c4chain im150) = isLandscape (force_orientation im150 true).1) := by
  refine ⟨fun im want => ?_, fun im want hne => ?_, fun im hsq => ?_, fun im want => ?_, by decide⟩
  · by_cases h : (decide (im.h ≤ im.w) : Bool) = want <;>
      simp [force_orientation, isLandscape, h]
  · by_cases h : (decide (im.h ≤ im.w) : Bool) = want
    · simp [force_orientation, isLandscape, h]
    · cases want
      · have hw : im.h ≤ im.w := by simpa using h
        have hf : force_orientation im false = (pilRotate 90 im, true) := by
          simp [force_orientation, hw]
        rw [hf]
        simp only [isLandscape, pilRotate, rotCCW90, decide_eq_false_iff_not]
        omega
      · have hw : ¬ im.h ≤ im.w := by simpa using h
        have hf : force_orientation im true = (pilRotate 270 im, true) := by
          simp [force_orientation, hw]
        rw [hf]
        simp only [isLandscape, pilRotate, decide_eq_true_eq]
        omega
  · have hle : im.h ≤ im.w := le_of_eq hsq.symm
    refine ⟨?_, ?_, ?_⟩ <;>
      simp [force_orientation, isLandscape, pilRotate, rotCCW90, hle, hsq.le]
  · by_cases h : (decide (im.h ≤ im.w) : Bool) = want
    · exact Or.inl (by simp [force_orientation, h])
    · cases want
      · exact Or.inr (Or.inr (by simp [force_orientation, h]))
      · exact Or.inr (Or.inl (by simp [force_orientation, h]))

/-- C4 witness: the amended properties instantiated on the concrete
100×200 image. -/
theorem C4_witness :
    im100200.w ≠ im100200.h ∧ isLandscape (force_orientation im100200 true).1 = true :=
  ⟨by decide, C4_force_target.2.1 im100200 true (by decide)⟩

/-- C2 counterexample: on the fixed metadata, neither renamer produces
the claimed base name `20240305_142201_123_lat37.7749_lonm122.4194_IMG_5`
(the pro renamer writes `p` for the decimal dot, the basic renamer
writes a real minus sign). -/
theorem C2_counterexample :
    generate_filename c2meta ≠ "20240305_142201_123_lat37.7749_lonm122.4194_IMG_5" ∧
      basic_base_name c2meta ≠ "20240305_142201_123_lat37.7749_lonm122.4194_IMG_5" :=
  ⟨by decide, by decide⟩

/-- C2 (amended): on the fixed metadata the pro renamer derives exactly
`20240305_142201_123_lat37p7749_lonm122p4194_IMG_5` (dots replaced by
`p`, minus by `m`), the basic renamer derives exactly
`20240305_142201_123_lat37.7749_lon-122.4194_IMG_5`, and identical
metadata inputs always derive identical strings (derivation consults no
clock and no randomness). -/
theorem C2_filename_determinism :
    generate_filename c2meta = "20240305_142201_123_lat37p7749_lonm122p4194_IMG_5" ∧
      basic_base_name c2meta = "20240305_142201_123_lat37.7749_lon-122.4194_IMG_5" ∧
      (∀ m₁ m₂ : ImageMetadata, m₁ = m₂ →
        generate_filename m₁ = generate_filename m₂ ∧
          basic_base_name m₁ = basic_base_name m₂) :=
  ⟨by decide, by decide, fun m₁ m₂ h => by rw [h]; exact ⟨rfl, rfl⟩⟩

/-- C2 witness: determinism instantiated at the fixed metadata. -/
theorem C2_witness :
    c2meta = c2meta ∧
      (generate_filename c2meta = generate_filename c2meta ∧
        basic_base_name c2meta = basic_base_name c2meta) :=
  ⟨rfl, C2_filename_determinism.2.2 c2meta c2meta rfl⟩

theorem string_mk_length (l : List Char) : (⟨l⟩ : String).length = l.length := rfl

/-- Distinct counters give distinct fallback candidates. -/
theorem mkCandidate_injective (base ext : String) :
    Function.Injective (mkCandidate base ext) := by
  intro k₁ k₂ h
  apply natToDecimal_injective
  have hd := congrArg String.data h
  simp only [mkCandidate, String.data_append, List.append_assoc] at hd
  have h1 := List.append_cancel_left hd
  have h2 := List.append_cancel_left h1
  exact List.append_cancel_right h2

/-- A fallback candidate never coincides with the plain `base ++ ext`. -/
theorem mkCandidate_ne_plain (base ext : String) (k : Nat) :
    mkCandidate base ext k ≠ base ++ ext := by
  intro h
  have hd := congrArg String.length h
  simp only [mkCandidate, String.length_append, string_mk_length] at hd
  have hlen : 0 < (natToDecimal k).length :=
    List.length_pos.mpr (natToDecimal_ne_nil k)
  have hone : ("-" : String).length = 1 := rfl
  omega

/-- Some candidate among the first `dir.length + 1` counters is free. -/
theorem exists_free_candidate (dir : List String) (base ext : String) :
    ∃ m, 1 ≤ m ∧ m ≤ dir.length + 1 ∧ mkCandidate base ext m ∉ dir := by
  by_contra hc
  push_neg at hc
  have hsub : (Finset.Icc 1 (dir.length + 1)).image (mkCandidate base ext) ⊆
      dir.toFinset := by
    intro s hs
    simp only [Finset.mem_image, Finset.mem_Icc] at hs
    obtain ⟨m, ⟨hm1, hm2⟩, rfl⟩ := hs
    exact List.mem_toFinset.mpr (hc m hm1 hm2)
  have hcard := Finset.card_le_card hsub
  rw [Finset.card_image_of_injective _ (mkCandidate_injective base ext)] at hcard
  have h1 : (Finset.Icc 1 (dir.length + 1)).card = dir.length + 1 := by
    simp [Nat.card_Icc]
  have h2 := List.toFinset_card_le dir
  omega

/-- The fuelled while-loop returns the first free candidate at or after
`k`, provided some free candidate lies within the fuel window. -/
theorem getUniquePathGo_spec (dir : List String) (base ext : String) :
    ∀ fuel k, (∃ m, k ≤ m ∧ m < k + fuel ∧ mkCandidate base ext m ∉ dir) →
      ∃ r, getUniquePathGo dir base ext fuel k = mkCandidate base ext r ∧
        k ≤ r ∧ mkCandidate base ext r ∉ dir ∧
        ∀ j, k ≤ j → j < r → mkCandidate base ext j ∈ dir := by
  intro fuel
  induction fuel with
  | zero =>
    intro k hm
    obtain ⟨m, h1, h2, _⟩ := hm
    omega
  | succ fuel ih =>
    intro k hm
    rw [getUniquePathGo]
    by_cases hmem : mkCandidate base ext k ∈ dir
    · obtain ⟨m, h1, h2, h3⟩ := hm
      have hne : m ≠ k := fun e => h3 (by rw [e]; exact hmem)
      obtain ⟨r, hr1, hr2, hr3, hr4⟩ := ih (k + 1) ⟨m, by omega, by omega, h3⟩
      refine ⟨r, by simp only [hmem, if_true]; exact hr1, by omega, hr3, ?_⟩
      intro j hj1 hj2
      rcases Nat.eq_or_lt_of_le hj1 with he | hlt
      · rw [← he]; exact hmem
      · exact hr4 j hlt hj2
    · exact ⟨k, by simp [hmem], le_refl k, hmem, fun j hj1 hj2 => absurd hj2 (by omega)⟩

/-- C6: collision resolution.  The chosen name is `base ++ ext` when
free, else `base-k ext` for the least `k ≥ 1` whose candidate is free
(existence is checked on each successive candidate); consequently
deriving the same base three times — each result becoming an existing
file — yields `name`, `name-1`, `name-2`. -/
theorem C6_collision_resolution :
    (∀ (dir : List String) (base ext : String),
        (base ++ ext) ∉ dir → get_unique_path dir base ext = base ++ ext) ∧
      (∀ (dir : List String) (base ext : String), (base ++ ext) ∈ dir →
        ∃ k, 1 ≤ k ∧ get_unique_path dir base ext = mkCandidate base ext k ∧
          mkCandidate base ext k ∉ dir ∧
          ∀ j, 1 ≤ j → j < k → mkCandidate base ext j ∈ dir) ∧
      (∀ base ext : String,
        get_unique_path [] base ext = base ++ ext ∧
          get_unique_path [base ++ ext] base ext = mkCandidate base ext 1 ∧
          get_unique_path [base ++ ext, mkCandidate base ext 1] base ext =
            mkCandidate base ext 2) := by
  refine ⟨fun dir base ext h => by simp [get_unique_path, h], ?_, ?_⟩
  · intro dir base ext h
    obtain ⟨m, hm1, hm2, hm3⟩ := exists_free_candidate dir base ext
    obtain ⟨r, hr1, hr2, hr3, hr4⟩ :=
      getUniquePathGo_spec dir base ext (dir.length + 1) 1 ⟨m, hm1, by omega, hm3⟩
    refine ⟨r, hr2, ?_, hr3, hr4⟩
    rw [get_unique_path, if_pos h]
    exact hr1
  · intro base ext
    have h1 : mkCandidate base ext 1 ≠ base ++ ext := mkCandidate_ne_plain base ext 1
    have h2 : mkCandidate base ext 2 ≠ base ++ ext := mkCandidate_ne_plain base ext 2
    have h3 : mkCandidate base ext 2 ≠ mkCandidate base ext 1 :=
      (mkCandidate_injective base ext).ne (by omega)
    refine ⟨by simp [get_unique_path], ?_, ?_⟩
    · simp [get_unique_path, getUniquePathGo, h1]
    · simp [get_unique_path, getUniquePathGo, h1, h2, h3]

/-- C6 witness: the free-name case instantiated at an empty directory. -/
theorem C6_witness :
    ("x" ++ ".jpg") ∉ ([] : List String) ∧
      get_unique_path [] "x" ".jpg" = "x" ++ ".jpg" :=
  ⟨by simp, C6_collision_resolution.1 [] "x" ".jpg" (by simp)⟩

/-- C7: a GPS pair is attached iff both components are present, in
range, and not both within 0.01° of the origin; any failing pair is
treated as absent (the code returns `(None, None)` with only a debug
log, no error).  In particular (0.001, -0.002) is absent and
(45, 90) is retained. -/
theorem C7_gps_validation :
    (∀ (lat lon : Option ℚ) (a b : ℚ),
      extract_gps lat lon = some (a, b) ↔
        (lat = some a ∧ lon = some b ∧ -90 ≤ a ∧ a ≤ 90 ∧ -180 ≤ b ∧ b ≤ 180 ∧
          ¬(|a| < 1 / 100 ∧ |b| < 1 / 100))) ∧
      extract_gps (some (1 / 1000)) (some (-(2 / 1000))) = none ∧
      extract_gps (some 45) (some 90) = some (45, 90) := by
  refine ⟨?_, ?_, ?_⟩
  case refine_2 =>
    simp only [extract_gps]
    rw [if_neg (not_not_intro (by norm_num)), if_neg (not_not_intro (by norm_num)),
      if_pos (⟨by rw [abs_lt]; constructor <;> norm_num,
        by rw [abs_lt]; constructor <;> norm_num⟩ :
          |(1 : ℚ) / 1000| < 1 / 100 ∧ |(-(2 / 1000) : ℚ)| < 1 / 100)]
  case refine_3 =>
    simp only [extract_gps]
    rw [if_neg (not_not_intro (by norm_num)), if_neg (not_not_intro (by norm_num)),
      if_neg (by rintro ⟨ha, _⟩; rw [abs_lt] at ha; norm_num at ha)]
  intro lat lon a b
  cases lat with
  | none => simp [extract_gps]
  | some la =>
    cases lon with
    | none => simp [extract_gps]
    | some lo =>
      simp only [extract_gps]
      by_cases h1 : -90 ≤ la ∧ la ≤ 90
      · rw [if_neg (not_not_intro h1)]
        by_cases h2 : -180 ≤ lo ∧ lo ≤ 180
        · rw [if_neg (not_not_intro h2)]
          by_cases h3 : |la| < 1 / 100 ∧ |lo| < 1 / 100
          · rw [if_pos h3]
            constructor
            · intro h; exact Option.noConfusion h
            · rintro ⟨ha, hb, _, _, _, _, hni⟩
              obtain rfl := Option.some.inj ha
              obtain rfl := Option.some.inj hb
              exact absurd h3 hni
          · rw [if_neg h3]
            constructor
            · intro h
              obtain ⟨rfl, rfl⟩ := Prod.mk.injEq .. ▸ Option.some.inj h
              exact ⟨rfl, rfl, h1.1, h1.2, h2.1, h2.2, h3⟩
            · rintro ⟨ha, hb, _⟩
              obtain rfl := Option.some.inj ha
              obtain rfl := Option.some.inj hb
              rfl
        · rw [if_pos h2]
          constructor
          · intro h; exact Option.noConfusion h
          · rintro ⟨ha, hb, _, _, hb1, hb2, _⟩
            obtain rfl := Option.some.inj ha
            obtain rfl := Option.some.inj hb
            exact absurd ⟨hb1, hb2⟩ h2
      · rw [if_pos h1]
        constructor
        · intro h; exact Option.noConfusion h
        · rintro ⟨ha, hb, ha1, ha2, _, _, _⟩
          obtain rfl := Option.some.inj ha
          obtain rfl := Option.some.inj hb
          exact absurd ⟨ha1, ha2⟩ h1

/-- Component-wise effect of folding the batch loop from any initial
statistics: the total is untouched, every file is tallied into exactly
one of processed/skipped/errors, and errors (with their detail lines)
count exactly the recorded-error results. -/
theorem batch_foldl_spec (results : List (String × Bool × Option String)) :
    ∀ init : ProcessingStats,
      (results.foldl batchStep init).total = init.total ∧
        (results.foldl batchStep init).processed + (results.foldl batchStep init).skipped +
            (results.foldl batchStep init).errors =
          init.processed + init.skipped + init.errors + results.length ∧
        (results.foldl batchStep init).errors = init.errors + results.countP isRecordedError ∧
        (results.foldl batchStep init).error_details.length =
          init.error_details.length + results.countP isRecordedError := by
  induction results with
  | nil => intro init; simp
  | cons r rs ih =>
    intro init
    rw [List.foldl_cons, List.countP_cons]
    obtain ⟨h1, h2, h3, h4⟩ := ih (batchStep init r)
    obtain ⟨p, succ, err⟩ := r
    cases err with
    | none =>
      cases succ <;> simp_all [batchStep, isRecordedError] <;> omega
    | some e =>
      by_cases hs : isSkippableError e <;>
        simp_all [batchStep, isRecordedError] <;> omega

/-- C9: batch isolation.  Every per-file result is tallied (no failure
stops the loop), errors are recorded per file with their detail lines,
the exit status is 0 exactly when zero errors were recorded, and the
one-corrupt-plus-four-valid demo reports exactly 1 error, 4
successes/skips and a non-zero exit. -/
theorem C9_batch_isolation :
    (∀ results : List (String × Bool × Option String),
      (process_images_batch results).total = results.length ∧
        (process_images_batch results).processed + (process_images_batch results).skipped +
            (process_images_batch results).errors = results.length ∧
        (process_images_batch results).errors = results.countP isRecordedError ∧
        (process_images_batch results).error_details.length =
          (process_images_batch results).errors ∧
        (exit_code (process_images_batch results) = 0 ↔
          (process_images_batch results).errors = 0)) ∧
      ((process_images_batch c9demo).errors = 1 ∧
        (process_images_batch c9demo).processed + (process_images_batch c9demo).skipped = 4 ∧
        exit_code (process_images_batch c9demo) = 1) := by
  refine ⟨fun results => ?_, by decide⟩
  obtain ⟨h1, h2, h3, h4⟩ := batch_foldl_spec results ⟨results.length, 0, 0, 0, []⟩
  dsimp only at h1 h2 h3 h4
  simp only [List.length_nil] at h2 h3 h4
  rw [process_images_batch]
  refine ⟨h1, by omega, by omega, by omega, ?_⟩
  by_cases h : (results.foldl batchStep ⟨results.length, 0, 0, 0, []⟩).errors = 0 <;>
    simp [exit_code, h]

/-- C10: with no EXIF block, or a block with no orientation entry, the
tag defaults to 1 and ExifNormalize reports no change, returning the
image unchanged. -/
theorem C10_default_orientation (exif : Option (List (Nat × Nat))) (im : PImage)
    (h : exif = none ∨ ∃ m, exif = some m ∧ m.lookup 274 = none) :
    get_orientation_tag exif = 1 ∧ resolve_exif exif im = (im, false) := by
  have ht : get_orientation_tag exif = 1 := by
    rcases h with rfl | ⟨m, rfl, hm⟩
    · rfl
    · simp [get_orientation_tag, hm]
  refine ⟨ht, ?_⟩
  unfold resolve_exif
  rw [ht]
  rfl

theorem mem_firstDedup {a : String} : ∀ {l : List String}, a ∈ firstDedup l ↔ a ∈ l := by
  intro l
  induction l with
  | nil => simp [firstDedup]
  | cons b rest ih =>
    simp only [firstDedup, List.mem_cons, List.mem_filter]
    constructor
    · rintro (rfl | ⟨hmem, _⟩)
      · exact Or.inl rfl
      · exact Or.inr (ih.mp hmem)
    · rintro (rfl | hmem)
      · exact Or.inl rfl
      · by_cases he : a = b
        · exact Or.inl he
        · exact Or.inr ⟨ih.mpr hmem, by simp [he]⟩

theorem sortCands_sorted (l : List (Nat × String)) : List.Sorted pairLe (sortCands l) :=
  List.sorted_insertionSort pairLe l

theorem sortCands_perm (l : List (Nat × String)) : (sortCands l).Perm l :=
  List.perm_insertionSort pairLe l

/-- The copy numbers of a sorted candidate list ascend. -/
theorem pairLe_fst_le {a b : Nat × String} (h : pairLe a b) : a.1 ≤ b.1 := by
  rcases h with h | ⟨h, _⟩
  · exact Nat.le_of_lt h
  · exact Nat.le_of_eq h

theorem sortCands_nums_sorted (l : List (Nat × String)) :
    List.Sorted (· ≤ ·) ((sortCands l).map (fun p => p.1)) := by
  have h := sortCands_sorted l
  exact List.Pairwise.map (fun p => p.1) (fun _ _ hab => pairLe_fst_le hab) h

/-- C5: duplicate grouping.  (a) A copy-candidate whose exact original
name is present as a non-copy file lands in that original's copies,
which are the candidate list sorted by ascending copy number; (b) with
no such original, the least candidate becomes the pseudo-canonical and
the remaining candidates, still ascending, become its copies; and the
two concrete examples of the claim. -/
theorem C5_duplicate_grouping :
    (∀ (files : List String) (f orig : String),
      f ∈ files → dupOriginalName f = some orig → orig ∈ files →
      matchDupPattern orig.data = none →
      (orig, (sortCands (copyCandidates files orig)).map (fun p => p.2)) ∈
          find_duplicates_by_pattern files ∧
        f ∈ (sortCands (copyCandidates files orig)).map (fun p => p.2) ∧
        List.Sorted (· ≤ ·) ((sortCands (copyCandidates files orig)).map (fun p => p.1))) ∧
      (∀ (files : List String) (orig : String) (c : Nat × String)
          (rest : List (Nat × String)),
        (∃ f ∈ files, dupOriginalName f = some orig) →
        isOriginalPresent files orig = false →
        sortCands (copyCandidates files orig) = c :: rest → rest ≠ [] →
        (c.2, rest.map (fun p => p.2)) ∈ find_duplicates_by_pattern files ∧
          (∀ p ∈ copyCandidates files orig, c.1 ≤ p.1) ∧
          List.Sorted (· ≤ ·) ((c :: rest).map (fun p => p.1))) ∧
      find_duplicates_by_pattern ["photo.jpg", "photo 2.jpg", "photo 3.jpg"] =
        [("photo.jpg", ["photo 2.jpg", "photo 3.jpg"])] ∧
      find_duplicates_by_pattern ["x 2.jpg", "x 5.jpg"] = [("x 2.jpg", ["x 5.jpg"])] := by
  refine ⟨?_, ?_, by decide, by decide⟩
  · intro files f orig hf hdup horig hnomatch
    have hkey : orig ∈ dupKeys files :=
      mem_firstDedup.mpr (List.mem_filterMap.mpr ⟨f, hf, hdup⟩)
    have hpres : isOriginalPresent files orig = true := by
      simp [isOriginalPresent, horig, hnomatch]
    refine ⟨?_, ?_, sortCands_nums_sorted _⟩
    · exact List.mem_filterMap.mpr ⟨orig, hkey, by simp [hpres]⟩
    · obtain ⟨r, hr, hor⟩ :
          ∃ r, matchDupPattern f.data = some r ∧ (⟨r.1 ++ r.2.2⟩ : String) = orig := by
        unfold dupOriginalName at hdup
        cases hm : matchDupPattern f.data with
        | none => rw [hm] at hdup; simp at hdup
        | some r =>
          rw [hm] at hdup
          simp at hdup
          exact ⟨r, rfl, hdup⟩
      have hcand : (decimalToNat r.2.1, f) ∈ copyCandidates files orig :=
        List.mem_filterMap.mpr ⟨f, hf, by rw [hr]; simp [hor]⟩
      exact List.mem_map.mpr
        ⟨(decimalToNat r.2.1, f), (sortCands_perm _).mem_iff.mpr hcand, rfl⟩
  · intro files orig c rest hex hpres hsorted hrest
    obtain ⟨f, hf, hdup⟩ := hex
    have hkey : orig ∈ dupKeys files :=
      mem_firstDedup.mpr (List.mem_filterMap.mpr ⟨f, hf, hdup⟩)
    have hsortedLe := sortCands_sorted (copyCandidates files orig)
    rw [hsorted] at hsortedLe
    refine ⟨?_, ?_, ?_⟩
    · refine List.mem_filterMap.mpr ⟨orig, hkey, ?_⟩
      cases rest with
      | nil => exact absurd rfl hrest
      | cons r rs => simp [hpres, hsorted]
    · intro p hp
      have hpmem : p ∈ c :: rest := by
        rw [← hsorted]
        exact (sortCands_perm _).mem_iff.mpr hp
      rcases List.mem_cons.mp hpmem with he | hmem
      · rw [he]
      · exact pairLe_fst_le ((List.sorted_cons.mp hsortedLe).1 p hmem)
    · exact List.Pairwise.map (fun p => p.1) (fun _ _ hab => pairLe_fst_le hab) hsortedLe

/-- C5 witness: part (a) instantiated on the photo example. -/
theorem C5_witness :
    ("photo 2.jpg" ∈ (["photo.jpg", "photo 2.jpg", "photo 3.jpg"] : List String)) ∧
      (("photo.jpg",
          (sortCands (copyCandidates ["photo.jpg", "photo 2.jpg", "photo 3.jpg"]
            "photo.jpg")).map (fun p => p.2)) ∈
            find_duplicates_by_pattern ["photo.jpg", "photo 2.jpg", "photo 3.jpg"] ∧
        "photo 2.jpg" ∈ (sortCands (copyCandidates ["photo.jpg", "photo 2.jpg", "photo 3.jpg"]
          "photo.jpg")).map (fun p => p.2) ∧
        List.Sorted (· ≤ ·)
          ((sortCands (copyCandidates ["photo.jpg", "photo 2.jpg", "photo 3.jpg"]
            "photo.jpg")).map (fun p => p.1))) :=
  ⟨by decide, C5_duplicate_grouping.1 ["photo.jpg", "photo 2.jpg", "photo 3.jpg"]
    "photo 2.jpg" "photo.jpg" (by decide) (by decide) (by decide) (by decide)⟩

/-- C8: hash verification.  A copy whose byte size differs from the
canonical's is never hashed, is reported with the size-mismatch reason
(distinct from the hash-mismatch reason), and is excluded; an
equal-sized copy is kept exactly when its digest (same mode as the
canonical's) equals the canonical's; surviving groups appear in the
verified output. -/
theorem C8_hash_verification (digest : List Nat → Nat) (st : List (String × List Nat))
    (quick : Bool) (g : String × List String) (c : String) (ob cb : List Nat)
    (hg : st.lookup g.1 = some ob) (hc : c ∈ g.2) (hcb : st.lookup c = some cb) :
    (cb.length ≠ ob.length →
      c ∉ (verifyGroup digest st quick g).hashed ∧
        (c, RejectReason.sizeMismatch) ∈ (verifyGroup digest st quick g).rejected ∧
        c ∉ (verifyGroup digest st quick g).kept) ∧
      (cb.length = ob.length →
        (c ∈ (verifyGroup digest st quick g).kept ↔
          get_file_hash digest quick cb = get_file_hash digest quick ob)) ∧
      RejectReason.sizeMismatch ≠ RejectReason.hashMismatch ∧
      (∀ groups, g ∈ groups → c ∈ (verifyGroup digest st quick g).kept →
        (g.1, (verifyGroup digest st quick g).kept) ∈
          verify_duplicates_by_hash digest st quick groups) := by
  have hvg : verifyGroup digest st quick g =
      ⟨keptOf digest st quick ob g.2, g.1 :: hashedCopiesOf st ob g.2,
        rejectedOf digest st quick ob g.2⟩ := by
    unfold verifyGroup
    rw [hg]
  have hpart4 : ∀ groups, g ∈ groups → c ∈ (verifyGroup digest st quick g).kept →
      (g.1, (verifyGroup digest st quick g).kept) ∈
        verify_duplicates_by_hash digest st quick groups := by
    intro groups hgmem hck
    refine List.mem_filterMap.mpr ⟨g, hgmem, ?_⟩
    have hne2 : (verifyGroup digest st quick g).kept ≠ [] := List.ne_nil_of_mem hck
    cases hk : (verifyGroup digest st quick g).kept with
    | nil => exact absurd hk hne2
    | cons a as => simp [hk]
  rw [hvg]
  refine ⟨fun hne => ?_, fun hlen => ?_, fun h => RejectReason.noConfusion h, ?_⟩
  case refine_3 =>
    rw [hvg] at hpart4
    exact hpart4
  · have hcne : c ≠ g.1 := by
      intro he
      rw [he, hg] at hcb
      exact hne (by rw [Option.some.inj hcb])
    refine ⟨?_, ?_, ?_⟩
    · intro hmem
      rcases List.mem_cons.mp hmem with he | hfil
      · exact hcne he
      · have hp := (List.mem_filter.mp hfil).2
        simp [hcb, hne] at hp
    · exact List.mem_filterMap.mpr ⟨c, hc, by simp [hcb, hne]⟩
    · intro hmem
      have hp := (List.mem_filter.mp hmem).2
      simp [hcb] at hp
      exact hne hp.1
  · constructor
    · intro hmem
      have hp := (List.mem_filter.mp hmem).2
      simp [hcb] at hp
      exact hp.2
    · intro hh
      exact List.mem_filter.mpr ⟨hc, by simp [hcb, hlen, hh]⟩

/-- C8 witness: a two-byte copy of a three-byte canonical, with the
running-sum digest standing in for MD5. -/
theorem C8_witness :
    "a 2.jpg" ∉ (verifyGroup List.sum [("a.jpg", [1, 2, 3]), ("a 2.jpg", [1, 2])] true
        ("a.jpg", ["a 2.jpg"])).hashed ∧
      ("a 2.jpg", RejectReason.sizeMismatch) ∈
        (verifyGroup List.sum [("a.jpg", [1, 2, 3]), ("a 2.jpg", [1, 2])] true
          ("a.jpg", ["a 2.jpg"])).rejected ∧
      "a 2.jpg" ∉ (verifyGroup List.sum [("a.jpg", [1, 2, 3]), ("a 2.jpg", [1, 2])] true
        ("a.jpg", ["a 2.jpg"])).kept :=
  (C8_hash_verification List.sum [("a.jpg", [1, 2, 3]), ("a 2.jpg", [1, 2])] true
    ("a.jpg", ["a 2.jpg"]) "a 2.jpg" [1, 2, 3] [1, 2] (by decide) (by decide)
    (by decide)).1 (by decide)

/-- C10 witness: an EXIF block holding only a DateTime tag (306), no
orientation entry. -/
theorem C10_witness :
    ((some [(306, 5)] : Option (List (Nat × Nat))) = none ∨
      ∃ m, (some [(306, 5)] : Option (List (Nat × Nat))) = some m ∧
        m.lookup 274 = none) ∧
      (get_orientation_tag (some [(306, 5)]) = 1 ∧
        resolve_exif (some [(306, 5)]) cexImg = (cexImg, false)) :=
  ⟨Or.inr ⟨_, rfl, by decide⟩,
    C10_default_orientation (some [(306, 5)]) cexImg (Or.inr ⟨_, rfl, by decide⟩)⟩

end LazyMe
